import Mathlib

/-!
Verification of the Real-Time Audio Resource Arbiter & Voice Interaction
State Machine of the ESP32-P4 voice-assistant firmware.

Shallow embedding of:
* `main/wwd.c`   — wake-word detector: chunked feed, single-shot detection,
  threshold clamping with read-back.
* `agc.c`        — automatic gain control: RMS, noise gate, one-pole gain
  smoothing, gain limits.
* `main/main.c`  — audio command dispatcher (`audio_cmd_task`), wake callback
  re-entrancy guard, pipeline error recovery, session warm-up frames,
  wake-word init retry logic.

Machine integers are modelled as `Nat`/`Int` (values stay far below the
overflow bounds of the C types on every path used here); C `float`
quantities are modelled as `ℚ`, with `expf` passed in as an opaque
function argument.  Fallible C functions returning `esp_err_t` are
modelled with `Option` (`none` = error return before any state change).
-/

namespace VA

/-! ## Wake-word detector (`main/wwd.c`) -/

/-- Detector-module state: the fields of the C `wwd_state` static that the
feed/start/stop protocol touches.  `chunk_buffer` holds the currently
accumulated partial window; its length is the C `chunk_filled`. -/
structure WwdDetState where
  initialized : Bool
  running : Bool
  chunk_size : Nat
  chunk_buffer : List Int
  deriving Repr, DecidableEq

/-- Accumulator for one `wwd_feed_audio` call: detector run/window state plus
counts of `detect()` invocations and detection-callback invocations. -/
structure FeedAcc where
  running : Bool
  buf : List Int
  detect_calls : Nat
  callback_calls : Nat
  deriving Repr, DecidableEq

/-- One sample of the accumulation loop of `wwd_feed_audio` (wwd.c:283-310).
The C loop copies `to_copy = min(remaining, chunk_size - chunk_filled)`
samples at a time and calls `detect()` exactly when the window fills; since
`chunk_filled < chunk_size` holds at every loop entry (it is reset to 0 by
`wwd_start` and immediately after each `detect()`), firing `detect` after
each single appended sample reaches `chunk_size` visits exactly the same
window boundaries.  On `WAKENET_DETECTED` the callback is invoked and
`running` is cleared, which makes the loop drop the rest of the input. -/
def wwd_feed_step (detect : List Int → Bool) (chunk_size : Nat)
    (acc : FeedAcc) (x : Int) : FeedAcc :=
  if acc.running = false then acc
  else
    let buf := acc.buf ++ [x]
    if buf.length = chunk_size then
      if detect buf then
        { running := false, buf := [],
          detect_calls := acc.detect_calls + 1,
          callback_calls := acc.callback_calls + 1 }
      else
        { acc with buf := [], detect_calls := acc.detect_calls + 1 }
    else
      { acc with buf := buf }

/-- `wwd_feed_audio` (wwd.c:264-313).  Returns `none` for the
`ESP_ERR_INVALID_STATE` / `ESP_ERR_INVALID_ARG` early returns, otherwise
the updated module state together with the number of `detect()` calls and
the number of detection-callback invocations made during this feed. -/
def wwd_feed_audio (detect : List Int → Bool) (s : WwdDetState)
    (input : List Int) : Option (WwdDetState × Nat × Nat) :=
  if s.running = false then none
  else if input = [] then none
  else if s.chunk_size = 0 then none
  else
    let r := input.foldl (wwd_feed_step detect s.chunk_size)
      ⟨s.running, s.chunk_buffer, 0, 0⟩
    some ({ s with running := r.running, chunk_buffer := r.buf },
      r.detect_calls, r.callback_calls)

/-- `wwd_start` (wwd.c:233-251): requires `initialized`; if already running
it returns `ESP_OK` unchanged; otherwise it resets the accumulation window
(`chunk_filled = 0`) and arms the detector. -/
def wwd_start (s : WwdDetState) : Option WwdDetState :=
  if s.initialized = false then none
  else if s.running then some s
  else some { s with chunk_buffer := [], running := true }

/-- `wwd_stop` (wwd.c:253-262): disarms the detector; the accumulated
window is left in place (it is discarded by the next `wwd_start`). -/
def wwd_stop (s : WwdDetState) : WwdDetState :=
  if s.running = false then s else { s with running := false }

/-! ## Threshold updates (`wwd_set_threshold` / `wwd_get_threshold`) -/

/-- The WakeNet model handle as seen through the detection-model collaborator
interface: number of registered keywords (`get_word_num`) and the per-word
threshold (`get_det_threshold`, 1-based word index). -/
structure WnModel where
  num_words : Nat
  thr : Nat → ℚ

/-- One backend call made by `wwd_set_threshold`, recorded in order. -/
inductive WnOp where
  | setThr : ℚ → Nat → WnOp
  | getThr : Nat → WnOp
  deriving Repr, DecidableEq

/-- The clamp of wwd.c:322-330: values below 0.4 become 0.4, values above
0.95 become 0.95 (two sequential `if`s, mirrored exactly). -/
def clampThr (t : ℚ) : ℚ :=
  let t1 := if t < 2/5 then 2/5 else t
  if t1 > 19/20 then 19/20 else t1

/-- Body of the per-word loop of wwd.c:335-350: `set_det_threshold` on word
`i` followed immediately by the `get_det_threshold` read-back, accumulating
`all_success` and the backend-call trace.  `bset` is the backend's
`set_det_threshold` behaviour (returns the updated model handle and whether
the write was accepted, C `result == 1`). -/
def wwd_set_threshold_loop (bset : WnModel → ℚ → Nat → WnModel × Bool)
    (t : ℚ) (acc : WnModel × Bool × List WnOp) (i : Nat) :
    WnModel × Bool × List WnOp :=
  (((bset acc.1 t i).1), acc.2.1 && (bset acc.1 t i).2,
    acc.2.2 ++ [WnOp.setThr t i, WnOp.getThr i])

/-- `wwd_set_threshold` (wwd.c:315-357): clamp, write every word index
`1..num_words` with read-back, update the stored config threshold only if
every write succeeded.  Returns (model, new config threshold, success,
backend-call trace). -/
def wwd_set_threshold (bset : WnModel → ℚ → Nat → WnModel × Bool)
    (m : WnModel) (configThr t : ℚ) : WnModel × ℚ × Bool × List WnOp :=
  let t' := clampThr t
  let r := (List.range' 1 m.num_words).foldl
    (wwd_set_threshold_loop bset t') (m, true, [])
  if r.2.1 then (r.1, t', true, r.2.2) else (r.1, configThr, false, r.2.2)

/-- `wwd_get_threshold` (wwd.c:359-365): the model's threshold for word 1,
or 0.0 when uninitialized. -/
def wwd_get_threshold (initialized : Bool) (m : WnModel) : ℚ :=
  if initialized then m.thr 1 else 0

/-- A backend that accepts every threshold write (used as the C3 witness
instantiation of the backend behaviour). -/
def wn_accepting_set : WnModel → ℚ → Nat → WnModel × Bool :=
  fun m t i => ({ m with thr := Function.update m.thr i t }, true)

/-! ## Automatic gain control (`agc.c`) -/

/-- `agc_config_t` (agc.h).  C `float` fields are modelled as `ℚ`. -/
structure agc_config_t where
  sample_rate : Nat
  target_level : Nat
  min_gain : ℚ
  max_gain : ℚ
  attack_time_ms : ℚ
  release_time_ms : ℚ
  noise_gate_threshold : Nat
  deriving Repr, DecidableEq

/-- `struct agc_instance` (agc.c:92-107). -/
structure agc_instance where
  config : agc_config_t
  current_gain : ℚ
  input_level : Nat
  output_level : Nat
  attack_coeff : ℚ
  release_coeff : ℚ
  frames_processed : Nat
  clipping_count : Nat
  deriving Repr, DecidableEq

/-- `calculate_coefficient` (agc.c:112-130).  `expf` is the C runtime's
exponential, passed in abstractly. -/
def calculate_coefficient (expf : ℚ → ℚ) (time_ms : ℚ) (sample_rate : Nat)
    (frame_size : Nat) : ℚ :=
  if time_ms ≤ 0 then 1
  else
    let time_samples := time_ms / 1000 * sample_rate
    let frames := time_samples / frame_size
    if frames ≤ 0 then 1
    else 1 - expf (-1 / frames)

/-- `calculate_rms` (agc.c:135-151): integer mean of squares followed by a
truncating square root (the values reached never overflow the C
`uint64_t`/`uint32_t` intermediates for the sample counts in use). -/
def calculate_rms (audio : List Int) : Nat :=
  if audio = [] then 0
  else Nat.sqrt ((audio.foldl (fun acc s => acc + (s * s).toNat) 0) / audio.length)

/-- C cast `(int32_t)` of a float value: truncation toward zero. -/
def truncQ (q : ℚ) : Int :=
  if q < 0 then -((-q).floor) else q.floor

/-- Hard clipping to the 16-bit sample range (agc.c:263-270). -/
def clip16 (z : Int) : Int :=
  if z > 32767 then 32767 else if z < -32768 then -32768 else z

/-- The desired-gain computation of agc.c:230-242: `target_level / RMS`
(1.0 when RMS is zero), then the two sequential clamp `if`s. -/
def agc_desired_gain (agc : agc_instance) (rms : Nat) : ℚ :=
  let d0 : ℚ := if 0 < rms then (agc.config.target_level : ℚ) / rms else 1
  let d1 := if d0 < agc.config.min_gain then agc.config.min_gain else d0
  if d1 > agc.config.max_gain then agc.config.max_gain else d1

/-- `agc_get_default_config` (agc.c:153-164). -/
def agc_get_default_config : agc_config_t :=
  { sample_rate := 16000, target_level := 4000, min_gain := 1/2,
    max_gain := 8, attack_time_ms := 50, release_time_ms := 200,
    noise_gate_threshold := 50 }

/-- `agc_init` (agc.c:166-208): unity gain, cleared levels and counters,
smoothing coefficients derived with the assumed typical frame size 512. -/
def agc_init (expf : ℚ → ℚ) (config : agc_config_t) : agc_instance :=
  { config := config, current_gain := 1, input_level := 0, output_level := 0,
    attack_coeff := calculate_coefficient expf config.attack_time_ms
      config.sample_rate 512,
    release_coeff := calculate_coefficient expf config.release_time_ms
      config.sample_rate 512,
    frames_processed := 0, clipping_count := 0 }

/-- `agc_process` (agc.c:210-291).  `none` models the
`ESP_ERR_INVALID_ARG` return for an empty frame; otherwise returns the
updated instance and the (in-place modified) frame. -/
def agc_process (agc : agc_instance) (audio : List Int) :
    Option (agc_instance × List Int) :=
  if audio = [] then none
  else
    let input_rms := calculate_rms audio
    if input_rms < agc.config.noise_gate_threshold then
      some ({ agc with
        input_level := input_rms
        frames_processed := agc.frames_processed + 1 }, audio)
    else
      let desired := agc_desired_gain agc input_rms
      let coeff := if desired > agc.current_gain then agc.attack_coeff
        else agc.release_coeff
      let new_gain := agc.current_gain + coeff * (desired - agc.current_gain)
      let out := audio.map fun s => clip16 (truncQ ((s : ℚ) * new_gain))
      let clipped := audio.any fun s =>
        decide (truncQ ((s : ℚ) * new_gain) > 32767) ||
          decide (truncQ ((s : ℚ) * new_gain) < -32768)
      some ({ agc with
        current_gain := new_gain,
        input_level := input_rms,
        output_level := calculate_rms out,
        frames_processed := agc.frames_processed + 1,
        clipping_count := agc.clipping_count + (if clipped then 1 else 0) },
        out)

/-- `agc_set_target_level` (agc.c:311-321). -/
def agc_set_target_level (agc : agc_instance) (target_level : Nat) :
    agc_instance :=
  { agc with config := { agc.config with target_level := target_level } }

/-- `agc_set_gain_limits` (agc.c:323-343): validates the limits, then
clamps the current gain into the new range. -/
def agc_set_gain_limits (agc : agc_instance) (min_gain max_gain : ℚ) :
    Option agc_instance :=
  if min_gain ≤ 0 ∨ max_gain < min_gain then none
  else
    let g1 := if agc.current_gain < min_gain then min_gain else agc.current_gain
    let g2 := if g1 > max_gain then max_gain else g1
    some { agc with
      config := { agc.config with min_gain := min_gain, max_gain := max_gain },
      current_gain := g2 }

/-- `agc_reset` (agc.c:345-357): unity gain and cleared history
(`frames_processed` is deliberately left alone, as in the C). -/
def agc_reset (agc : agc_instance) : agc_instance :=
  { agc with
    current_gain := 1
    input_level := 0
    output_level := 0
    clipping_count := 0 }

/-- A concrete AGC instance (default config, an `expf` stub returning 1/2)
used to instantiate the AGC theorems. -/
def agc_default_half : agc_instance :=
  agc_init (fun _ => 1/2) agc_get_default_config

/-! ## Audio command dispatcher and session state (`main/main.c`) -/

/-- The arbiter commands relevant to the wake/record/resume cycle
(a subset of `audio_cmd_t`, main.c:61-77). -/
inductive AudioCmd where
  | wakeDetected
  | resumeWwd
  | pipelineErrorResume
  deriving Repr, DecidableEq

/-- `audio_post_cmd` (main.c:89-94): non-blocking enqueue into the bounded
command queue (depth 8, main.c:1540); a full queue drops the command. -/
def audio_post_cmd (q : List AudioCmd) (c : AudioCmd) : List AudioCmd :=
  if q.length < 8 then q ++ [c] else q

/-- The session-related statics of main.c:536-538 plus the command queue:
`pipeline_active`, `pipeline_handler` (modelled as "non-NULL"),
`audio_chunks_sent`, `warmup_chunks_skip`. -/
structure SessionState where
  pipeline_active : Bool
  pipeline_handler : Bool
  audio_chunks_sent : Nat
  warmup_chunks_skip : Nat
  queue : List AudioCmd
  deriving Repr, DecidableEq

/-- `pipeline_error_handler` (main.c:1173-1189): marks the pipeline
inactive, frees and nulls the session handle, zeroes the chunks-sent
counter, and posts `AUDIO_CMD_PIPELINE_ERROR_RESUME`. -/
def pipeline_error_handler (s : SessionState) : SessionState :=
  { s with
    pipeline_active := false
    pipeline_handler := false
    audio_chunks_sent := 0
    queue := audio_post_cmd s.queue AudioCmd.pipelineErrorResume }

/-- The fixed delay of the `AUDIO_CMD_PIPELINE_ERROR_RESUME` handler
(main.c:166, `vTaskDelay(pdMS_TO_TICKS(2000))`). -/
def pipeline_error_resume_delay_ms : Nat := 2000

/-- The `AUDIO_CMD_PIPELINE_ERROR_RESUME` case of `audio_cmd_task`
(main.c:164-169): wait the fixed delay, then post `AUDIO_CMD_RESUME_WWD`.
Returns the delay spent together with the new state. -/
def process_pipeline_error_resume (s : SessionState) : Nat × SessionState :=
  (pipeline_error_resume_delay_ms,
    { s with queue := audio_post_cmd s.queue AudioCmd.resumeWwd })

/-- Result of `ha_client_stream_audio` as seen by the capture handler. -/
inductive StreamRes where
  | ok
  | invalidState
  | err
  deriving Repr, DecidableEq

/-- `audio_capture_handler` (main.c:1393-1425): ignore frames while no
session/handle, while the remote channel is not ready (without consuming
warm-up budget), and empty frames; then discard `warmup_chunks_skip`
frames, decrementing the counter; then forward to the streaming
collaborator, counting sent chunks; a failed send tears the pipeline down
via `pipeline_error_handler`.  The returned `Bool` is whether the frame
was forwarded downstream. -/
def audio_capture_handler (audioReady : Bool) (stream : StreamRes)
    (s : SessionState) (frame : List Int) : SessionState × Bool :=
  if s.pipeline_active = false ∨ s.pipeline_handler = false then (s, false)
  else if audioReady = false then (s, false)
  else if frame = [] then (s, false)
  else if 0 < s.warmup_chunks_skip then
    ({ s with warmup_chunks_skip := s.warmup_chunks_skip - 1 }, false)
  else
    match stream with
    | StreamRes.ok =>
      ({ s with audio_chunks_sent := s.audio_chunks_sent + 1 }, true)
    | StreamRes.invalidState => (s, false)
    | StreamRes.err => (pipeline_error_handler s, false)

/-- The session initialisation performed by the success path of
`test_audio_streaming` (main.c:1427-1475): pipeline marked active with a
fresh handle, chunks-sent counter zeroed, warm-up budget set to 10. -/
def test_audio_streaming (s : SessionState) : SessionState :=
  { s with
    pipeline_active := true
    pipeline_handler := true
    audio_chunks_sent := 0
    warmup_chunks_skip := 10 }

/-- Feeding a sequence of captured frames through
`audio_capture_handler`; returns the final state and the frames forwarded
downstream, in order. -/
def capture_run (audioReady : Bool) (stream : StreamRes) (s : SessionState)
    (frames : List (List Int)) : SessionState × List (List Int) :=
  match frames with
  | [] => (s, [])
  | f :: rest =>
    let r := audio_capture_handler audioReady stream s f
    let r2 := capture_run audioReady stream r.1 rest
    (r2.1, (if r.2 then [f] else []) ++ r2.2)

/-! ## Arbiter wake/record/resume protocol (`main/main.c`)

Control-flow projection of the statics of main.c driving the wake cycle:
the detector's armed flag (wwd.c `running`), `wwd_init_result`,
`wake_detect_pending`, `pipeline_active`, a pending-TTS-completion flag
(TTS audio queued after the session ended, so the registered
`tts_playback_complete_handler` will fire once), and the command queue. -/
structure SysState where
  wwd_running : Bool
  wwd_init_ok : Bool
  wake_detect_pending : Bool
  pipeline_active : Bool
  tts_pending : Bool
  queue : List AudioCmd
  deriving Repr, DecidableEq

/-- `on_wake_word_detected` (main.c:1107-1131) on a `WWD_EVENT_DETECTED`
event: if a wake is already pending the event is ignored, otherwise the
pending flag is set and `AUDIO_CMD_WAKE_DETECTED` is posted. -/
def on_wake_word_detected (s : SysState) : SysState :=
  if s.wake_detect_pending then s
  else { s with
    wake_detect_pending := true
    queue := audio_post_cmd s.queue AudioCmd.wakeDetected }

/-- A detection firing inside `wwd_feed_audio` (wwd.c:298-308): the
callback runs, then the detector disarms itself (single-shot). -/
def wwd_detect_event (s : SysState) : SysState :=
  { on_wake_word_detected s with wwd_running := false }

/-- One `audio_cmd_task` command (main.c:96-337, restricted to the wake
cycle).  `AUDIO_CMD_WAKE_DETECTED`: stop the detector and wake-word
capture, play the ack tone, start the VAD capture/stream session
(`test_audio_streaming` success path), clear the pending flag.
`AUDIO_CMD_RESUME_WWD`: skipped (pending flag cleared) while the detector
is uninitialized, otherwise re-arms the detector and wake-word capture.
`AUDIO_CMD_PIPELINE_ERROR_RESUME`: after the fixed delay, posts
`AUDIO_CMD_RESUME_WWD`. -/
def process_cmd (c : AudioCmd) (s : SysState) : SysState :=
  match c with
  | AudioCmd.wakeDetected =>
    { s with
      wwd_running := false
      wake_detect_pending := false
      pipeline_active := true }
  | AudioCmd.resumeWwd =>
    if s.wwd_init_ok then { s with wwd_running := true }
    else { s with wake_detect_pending := false }
  | AudioCmd.pipelineErrorResume =>
    { s with queue := audio_post_cmd s.queue AudioCmd.resumeWwd }

/-- Events of the wake/record/resume protocol.  The `Bool` index selects
whether external control-surface commands (the MQTT `wwd_enabled` switch,
main.c:683-690, which posts `AUDIO_CMD_RESUME_WWD` at any time) are part
of the system; the autonomous cycle uses `false`. -/
inductive SysStep : Bool → SysState → SysState → Prop where
  | detect (ext : Bool) (s : SysState) (h : s.wwd_running = true) :
      SysStep ext s (wwd_detect_event s)
  | process (ext : Bool) (s : SysState) (c : AudioCmd)
      (rest : List AudioCmd) (h : s.queue = c :: rest) :
      SysStep ext s (process_cmd c { s with queue := rest })
  | speechEnd (ext : Bool) (s : SysState) (h : s.pipeline_active = true) :
      SysStep ext s { s with pipeline_active := false, tts_pending := true }
  | pipelineError (ext : Bool) (s : SysState) (h : s.pipeline_active = true) :
      SysStep ext s { s with
        pipeline_active := false
        queue := audio_post_cmd s.queue AudioCmd.pipelineErrorResume }
  | ttsComplete (ext : Bool) (s : SysState) (h : s.tts_pending = true) :
      SysStep ext s { s with
        tts_pending := false
        queue := audio_post_cmd s.queue AudioCmd.resumeWwd }
  | mqttWwdOn (s : SysState) :
      SysStep true s
        { s with queue := audio_post_cmd s.queue AudioCmd.resumeWwd }

/-- Boot state after a successful WWD init: `app_main` (main.c:1818-1827)
posts the initial `AUDIO_CMD_RESUME_WWD`. -/
def sysInit : SysState :=
  { wwd_running := false, wwd_init_ok := true, wake_detect_pending := false,
    pipeline_active := false, tts_pending := false,
    queue := [AudioCmd.resumeWwd] }

/-- The phase invariant of the autonomous wake cycle: quiescent, resume
queued, listening, wake in flight, recording, TTS playing, or error
recovery queued. -/
def SysInv (s : SysState) : Prop :=
  (∃ b, s = ⟨false, b, false, false, false, []⟩) ∨
  (∃ b, s = ⟨false, b, false, false, false, [AudioCmd.resumeWwd]⟩) ∨
  (∃ b, s = ⟨true, b, false, false, false, []⟩) ∨
  (∃ b, s = ⟨false, b, true, false, false, [AudioCmd.wakeDetected]⟩) ∨
  (∃ b, s = ⟨false, b, false, true, false, []⟩) ∨
  (∃ b, s = ⟨false, b, false, false, true, []⟩) ∨
  (∃ b, s = ⟨false, b, false, false, false, [AudioCmd.pipelineErrorResume]⟩)

/-! ## Wake-word init failure handling (`main/main.c`) -/

/-- `init_wake_word_detection_if_needed` (main.c:661-680): returns
immediately when already initialized, otherwise re-runs `wwd_init` and
stores its outcome (`init_outcome` is what `wwd_init` returns on this
attempt). -/
def init_wake_word_detection_if_needed (init_outcome wwd_init_result : Bool) :
    Bool :=
  if wwd_init_result then wwd_init_result else init_outcome

/-- The `AUDIO_CMD_RESTART_WWD` case of `audio_cmd_task` (main.c:177-199),
posted on every threshold change (main.c:569-575, 925-933): the detector
is deinitialized and `wwd_init` is re-run unconditionally, its fresh
outcome replacing `wwd_init_result`. -/
def process_restart_wwd (init_outcome _wwd_init_result : Bool) : Bool :=
  init_outcome

/-- Which activation path `app_main` takes (main.c:1818-1827). -/
inductive BootActivation where
  | resumeWakeWord
  | startVadPipeline
  deriving Repr, DecidableEq

/-- `app_main`'s activation decision: wake-word listening only when the
detector initialized and is not already running; otherwise the VAD
pipeline is started directly. -/
def app_main_activation (wwd_init_ok running : Bool) : BootActivation :=
  if wwd_init_ok && !running then BootActivation.resumeWakeWord
  else BootActivation.startVadPipeline

/-! Helper lemmas about the feed loop. -/

/-- A disarmed accumulator is left untouched by the feed loop body. -/
theorem wwd_feed_step_not_running (detect : List Int → Bool) (cs : Nat)
    (acc : FeedAcc) (x : Int) (h : acc.running = false) :
    wwd_feed_step detect cs acc x = acc := by
  simp [wwd_feed_step, h]

/-- While the model keeps answering `NOT_DETECTED`, feeding `n` samples from
a partial window of `b < chunk_size` samples performs `(b + n) / chunk_size`
detect calls, leaves the last `(b + n) % chunk_size` samples pending, fires
no callback, and keeps the detector armed. -/
theorem wwd_feed_foldl_not_detected (detect : List Int → Bool) (cs : Nat)
    (hdet : ∀ w, detect w = false) (hcs : 0 < cs) :
    ∀ (input buf : List Int) (d c : Nat), buf.length < cs →
      input.foldl (wwd_feed_step detect cs) ⟨true, buf, d, c⟩ =
        ⟨true, (buf ++ input).drop ((buf.length + input.length) / cs * cs),
          d + (buf.length + input.length) / cs, c⟩ := by
  intro input
  induction input with
  | nil =>
    intro buf d c hb
    simp [Nat.div_eq_of_lt hb]
  | cons x xs ih =>
    intro buf d c hb
    by_cases hfull : buf.length + 1 = cs
    · have hstep : wwd_feed_step detect cs ⟨true, buf, d, c⟩ x =
          ⟨true, [], d + 1, c⟩ := by
        simp [wwd_feed_step, hfull, hdet]
      rw [List.foldl_cons, hstep, ih [] (d + 1) c (by simpa using hcs)]
      have hlen : buf.length + (x :: xs).length = cs + xs.length := by
        simp; omega
      have hdiv : (cs + xs.length) / cs = xs.length / cs + 1 := by
        rw [Nat.add_comm cs xs.length, Nat.add_div_right _ hcs]
      have hbufx : buf ++ x :: xs = (buf ++ [x]) ++ xs := by simp
      have hlx : (buf ++ [x]).length = cs := by simp; omega
      have hdrop : (buf ++ x :: xs).drop ((xs.length / cs + 1) * cs) =
          xs.drop (xs.length / cs * cs) := by
        rw [hbufx]
        have hm : (xs.length / cs + 1) * cs =
            (buf ++ [x]).length + xs.length / cs * cs := by
          rw [hlx, Nat.add_mul, one_mul]
          exact Nat.add_comm _ _
        rw [hm, List.drop_append]
      simp only [List.nil_append, List.length_nil, Nat.zero_add]
      rw [hlen, hdiv, hdrop]
      have harith : d + 1 + xs.length / cs = d + (xs.length / cs + 1) := by
        rw [Nat.add_right_comm, Nat.add_assoc]
      rw [harith]
    · have hlt : buf.length + 1 < cs := by
        have := List.length_append buf [x]
        omega
      have hstep : wwd_feed_step detect cs ⟨true, buf, d, c⟩ x =
          ⟨true, buf ++ [x], d, c⟩ := by
        simp [wwd_feed_step]
        intro hh
        omega
      rw [List.foldl_cons, hstep, ih (buf ++ [x]) d c (by simpa using hlt)]
      have h1 : buf ++ x :: xs = (buf ++ [x]) ++ xs := by simp
      have h2 : (buf ++ [x]).length + xs.length = buf.length + (x :: xs).length := by
        simp; omega
      rw [h2, ← h1]

/-- Invariant of one loop body: the detection callback fires at most once per
feed, and firing it disarms the detector. -/
theorem wwd_feed_step_single_shot (detect : List Int → Bool) (cs : Nat)
    (acc : FeedAcc) (x : Int) (h1 : acc.callback_calls ≤ 1)
    (h2 : acc.callback_calls = 1 → acc.running = false) :
    (wwd_feed_step detect cs acc x).callback_calls ≤ 1 ∧
      ((wwd_feed_step detect cs acc x).callback_calls = 1 →
        (wwd_feed_step detect cs acc x).running = false) := by
  by_cases hr : acc.running = false
  · rw [wwd_feed_step_not_running detect cs acc x hr]
    exact ⟨h1, h2⟩
  · have hc0 : acc.callback_calls = 0 := by
      by_contra hne
      have hc1 : acc.callback_calls = 1 := by omega
      simp [h2 hc1] at hr
    by_cases hl : acc.buf.length + 1 = cs
    · by_cases hd : detect (acc.buf ++ [x]) = true
      · simp [wwd_feed_step, hr, hl, hd, hc0]
      · simp [wwd_feed_step, hr, hl, hd, hc0]
    · simp [wwd_feed_step, hr, hl, hc0]

/-- The single-shot invariant carried through a whole feed loop. -/
theorem wwd_feed_foldl_single_shot (detect : List Int → Bool) (cs : Nat) :
    ∀ (input : List Int) (acc : FeedAcc),
      acc.callback_calls ≤ 1 → (acc.callback_calls = 1 → acc.running = false) →
      (input.foldl (wwd_feed_step detect cs) acc).callback_calls ≤ 1 ∧
        ((input.foldl (wwd_feed_step detect cs) acc).callback_calls = 1 →
          (input.foldl (wwd_feed_step detect cs) acc).running = false) := by
  intro input
  induction input with
  | nil => intro acc h1 h2; exact ⟨h1, h2⟩
  | cons x xs ih =>
    intro acc h1 h2
    rw [List.foldl_cons]
    have hstep := wwd_feed_step_single_shot detect cs acc x h1 h2
    exact ih _ hstep.1 hstep.2

/-- C1.  Window discipline of `wwd_feed_audio`: input is split across
fixed-size window boundaries with `detect()` invoked exactly once per
completed window — feeding `chunk_size * 3 + 5` samples into a freshly
started detector (with a model that keeps answering `NOT_DETECTED`) makes
exactly 3 `detect()` calls and leaves the last 5 samples pending in the
accumulation buffer; a subsequent `wwd_stop(); wwd_start()` clears those 5
pending samples, so partial windows never survive a stop/start boundary. -/
theorem wwd_window_discipline (cs : Nat) (detect : List Int → Bool)
    (input : List Int) (hcs : 0 < cs) (h5 : 5 < cs)
    (hdet : ∀ w, detect w = false) (hlen : input.length = cs * 3 + 5) :
    wwd_feed_audio detect ⟨true, true, cs, []⟩ input =
      some (⟨true, true, cs, input.drop (3 * cs)⟩, 3, 0) ∧
    (input.drop (3 * cs)).length = 5 ∧
    wwd_start (wwd_stop ⟨true, true, cs, input.drop (3 * cs)⟩) =
      some ⟨true, true, cs, []⟩ := by
  have hne : input ≠ [] := by
    intro h
    rw [h] at hlen
    simp at hlen
  have hdiv : (List.length ([] : List Int) + input.length) / cs = 3 := by
    simp only [List.length_nil, Nat.zero_add, hlen]
    rw [Nat.mul_add_div hcs, Nat.div_eq_of_lt h5]
  refine ⟨?_, ?_, ?_⟩
  · unfold wwd_feed_audio
    simp only [hne, if_false]
    rw [if_neg (by simp), if_neg (by omega)]
    rw [wwd_feed_foldl_not_detected detect cs hdet hcs input [] 0 0
      (by simpa using hcs)]
    have hdiv2 : input.length / cs = 3 := by simpa using hdiv
    simp [hdiv2]
  · rw [List.length_drop, hlen]
    omega
  · simp [wwd_stop, wwd_start]

/-- C2.  Detection is single-shot: within one `wwd_feed_audio` call the
detection callback fires at most once, a fired callback means the
detector ended the call disarmed, a disarmed accumulator makes the rest
of the current feed a no-op, any subsequent feed on a disarmed detector
returns `ESP_ERR_INVALID_STATE` without calling `detect()` or the
callback, and only `wwd_start` re-arms the detector. -/
theorem wwd_single_shot (detect : List Int → Bool) (s : WwdDetState)
    (input : List Int) (s' : WwdDetState) (d c : Nat)
    (hfeed : wwd_feed_audio detect s input = some (s', d, c)) :
    c ≤ 1 ∧
    (1 ≤ c → s'.running = false) ∧
    (∀ (a : FeedAcc) (x : Int), a.running = false →
      wwd_feed_step detect s.chunk_size a x = a) ∧
    (s'.running = false → ∀ input2, wwd_feed_audio detect s' input2 = none) ∧
    (s'.running = false → s'.initialized = true →
      wwd_start s' = some { s' with running := true, chunk_buffer := [] }) := by
  unfold wwd_feed_audio at hfeed
  by_cases hr : s.running = false
  · simp [hr] at hfeed
  by_cases hi : input = []
  · simp [hr, hi] at hfeed
  by_cases hz : s.chunk_size = 0
  · simp [hr, hi, hz] at hfeed
  rw [if_neg hr, if_neg hi, if_neg hz] at hfeed
  have hinv := wwd_feed_foldl_single_shot detect s.chunk_size input
    ⟨s.running, s.chunk_buffer, 0, 0⟩ (by simp) (by simp)
  simp only [Option.some.injEq, Prod.mk.injEq] at hfeed
  obtain ⟨hs', hd', hc'⟩ := hfeed
  refine ⟨?_, ?_, ?_, ?_, ?_⟩
  · rw [← hc']; exact hinv.1
  · intro hc1
    have hone : (input.foldl (wwd_feed_step detect s.chunk_size)
        ⟨s.running, s.chunk_buffer, 0, 0⟩).callback_calls = 1 := by omega
    rw [← hs']
    exact hinv.2 hone
  · intro a x ha
    exact wwd_feed_step_not_running detect s.chunk_size a x ha
  · intro hstop input2
    unfold wwd_feed_audio
    simp [hstop]
  · intro hstop hinit
    unfold wwd_start
    simp [hstop, hinit]

/-- Witness for C1 at `chunk_size = 6` and 23 zero samples. -/
theorem wwd_window_discipline_witness :
    wwd_feed_audio (fun _ => false) ⟨true, true, 6, []⟩
        (List.replicate 23 (0 : Int)) =
      some (⟨true, true, 6, (List.replicate 23 (0 : Int)).drop (3 * 6)⟩, 3, 0) ∧
    ((List.replicate 23 (0 : Int)).drop (3 * 6)).length = 5 ∧
    wwd_start (wwd_stop ⟨true, true, 6,
        (List.replicate 23 (0 : Int)).drop (3 * 6)⟩) =
      some ⟨true, true, 6, []⟩ :=
  wwd_window_discipline 6 (fun _ => false) (List.replicate 23 0)
    (by decide) (by decide) (fun _ => rfl) (by simp)

/-- Witness for C2: a 2-sample window that detects on its first window. -/
theorem wwd_single_shot_witness :
    (1 : Nat) ≤ 1 ∧
    ((1 : Nat) ≤ 1 → (⟨true, false, 2, []⟩ : WwdDetState).running = false) ∧
    (∀ (a : FeedAcc) (x : Int), a.running = false →
      wwd_feed_step (fun _ => true)
        (WwdDetState.chunk_size ⟨true, true, 2, []⟩) a x = a) ∧
    ((⟨true, false, 2, []⟩ : WwdDetState).running = false →
      ∀ input2, wwd_feed_audio (fun _ => true)
        ⟨true, false, 2, []⟩ input2 = none) ∧
    ((⟨true, false, 2, []⟩ : WwdDetState).running = false →
      (⟨true, false, 2, []⟩ : WwdDetState).initialized = true →
      wwd_start ⟨true, false, 2, []⟩ =
        some { (⟨true, false, 2, []⟩ : WwdDetState) with
          running := true, chunk_buffer := [] }) :=
  wwd_single_shot (fun _ => true) ⟨true, true, 2, []⟩ [5, 7]
    ⟨true, false, 2, []⟩ 1 1 (by decide)

/-- Behaviour of the write/read-back loop over an accepting backend. -/
theorem wwd_set_threshold_loop_spec
    (bset : WnModel → ℚ → Nat → WnModel × Bool) (t' : ℚ)
    (hb : ∀ m' t'' i, bset m' t'' i =
      ({ m' with thr := Function.update m'.thr i t'' }, true)) :
    ∀ (l : List Nat) (m : WnModel) (tr : List WnOp),
      ((l.foldl (wwd_set_threshold_loop bset t') (m, true, tr)).1.num_words
          = m.num_words) ∧
      ((l.foldl (wwd_set_threshold_loop bset t') (m, true, tr)).2.1 = true) ∧
      ((l.foldl (wwd_set_threshold_loop bset t') (m, true, tr)).2.2 =
        tr ++ l.flatMap fun i => [WnOp.setThr t' i, WnOp.getThr i]) ∧
      (∀ j, ((l.foldl (wwd_set_threshold_loop bset t') (m, true, tr)).1).thr j
          = if j ∈ l then t' else m.thr j) := by
  intro l
  induction l with
  | nil =>
    intro m tr
    refine ⟨rfl, rfl, by simp, ?_⟩
    intro j
    simp
  | cons i l ih =>
    intro m tr
    rw [List.foldl_cons]
    have hstep : wwd_set_threshold_loop bset t' (m, true, tr) i =
        ({ m with thr := Function.update m.thr i t' }, true,
          tr ++ [WnOp.setThr t' i, WnOp.getThr i]) := by
      simp [wwd_set_threshold_loop, hb]
    rw [hstep]
    obtain ⟨ih1, ih2, ih3, ih4⟩ :=
      ih { m with thr := Function.update m.thr i t' }
        (tr ++ [WnOp.setThr t' i, WnOp.getThr i])
    refine ⟨by simpa using ih1, ih2, by simp [ih3], ?_⟩
    intro j
    rw [ih4 j]
    by_cases hj : j ∈ l
    · simp [hj]
    · by_cases hji : j = i
      · simp [hj, hji, Function.update]
      · simp [hj, hji, Function.update]

/-- C3.  `wwd_set_threshold` clamps the request to [0.4, 0.95], writes the
clamped value to every registered keyword index with a read-back after each
write, and (with a backend that accepts the writes) the threshold reported
by `wwd_get_threshold` is the clamped value — in particular 0.3 reports
back as 0.4 and 0.97 reports back as 0.95. -/
theorem wwd_threshold_clamp_roundtrip
    (bset : WnModel → ℚ → Nat → WnModel × Bool) (m : WnModel) (cfg t : ℚ)
    (hb : ∀ m' t'' i, bset m' t'' i =
      ({ m' with thr := Function.update m'.thr i t'' }, true))
    (hn : 1 ≤ m.num_words) :
    (2/5 : ℚ) ≤ clampThr t ∧ clampThr t ≤ 19/20 ∧
    (∀ i, 1 ≤ i → i ≤ m.num_words →
      (wwd_set_threshold bset m cfg t).1.thr i = clampThr t) ∧
    (wwd_set_threshold bset m cfg t).2.2.1 = true ∧
    (wwd_set_threshold bset m cfg t).2.2.2 =
      (List.range' 1 m.num_words).flatMap
        (fun i => [WnOp.setThr (clampThr t) i, WnOp.getThr i]) ∧
    wwd_get_threshold true (wwd_set_threshold bset m cfg t).1 = clampThr t ∧
    clampThr (3/10) = 2/5 ∧ clampThr (97/100) = 19/20 := by
  obtain ⟨h1, h2, h3, h4⟩ := wwd_set_threshold_loop_spec bset (clampThr t) hb
    (List.range' 1 m.num_words) m []
  have hclo : (2/5 : ℚ) ≤ clampThr t ∧ clampThr t ≤ 19/20 := by
    unfold clampThr
    by_cases ha : t < 2/5
    · simp only [ha, if_true]
      norm_num
    · simp only [ha, if_false]
      by_cases hc : t > 19/20
      · simp only [hc, if_true]
        norm_num
      · simp only [hc, if_false]
        constructor <;> linarith [not_lt.mp ha, not_lt.mp hc]
  have hset : wwd_set_threshold bset m cfg t =
      (((List.range' 1 m.num_words).foldl
          (wwd_set_threshold_loop bset (clampThr t)) (m, true, [])).1,
        clampThr t, true,
        ((List.range' 1 m.num_words).foldl
          (wwd_set_threshold_loop bset (clampThr t)) (m, true, [])).2.2) := by
    simp only [wwd_set_threshold]
    rw [h2]
    simp
  refine ⟨hclo.1, hclo.2, ?_, ?_, ?_, ?_, by norm_num [clampThr], by norm_num [clampThr]⟩
  · intro i hi1 hi2
    rw [hset]
    simp only
    rw [h4 i, if_pos]
    rw [List.mem_range'_1]
    exact ⟨hi1, by omega⟩
  · rw [hset]
  · rw [hset]
    simpa using h3
  · rw [hset]
    simp only [wwd_get_threshold, if_pos rfl]
    have hm1 : (1 : Nat) ∈ List.range' 1 m.num_words := by
      rw [List.mem_range'_1]
      omega
    rw [h4 1, if_pos hm1]
    simp

/-- Witness for C3: an accepting backend over a one-word model. -/
theorem wwd_threshold_clamp_roundtrip_witness :
    ((2/5 : ℚ) ≤ clampThr (3/10) ∧ clampThr (3/10) ≤ 19/20 ∧
      (∀ i, 1 ≤ i → i ≤ WnModel.num_words ⟨1, fun _ => 1/2⟩ →
        (wwd_set_threshold wn_accepting_set ⟨1, fun _ => 1/2⟩ (1/2) (3/10)).1.thr i
          = clampThr (3/10)) ∧
      (wwd_set_threshold wn_accepting_set ⟨1, fun _ => 1/2⟩ (1/2) (3/10)).2.2.1 = true ∧
      (wwd_set_threshold wn_accepting_set ⟨1, fun _ => 1/2⟩ (1/2) (3/10)).2.2.2 =
        (List.range' 1 (WnModel.num_words ⟨1, fun _ => 1/2⟩)).flatMap
          (fun i => [WnOp.setThr (clampThr (3/10)) i, WnOp.getThr i]) ∧
      wwd_get_threshold true
        (wwd_set_threshold wn_accepting_set ⟨1, fun _ => 1/2⟩ (1/2) (3/10)).1
          = clampThr (3/10) ∧
      clampThr (3/10) = 2/5 ∧ clampThr (97/100) = 19/20) :=
  wwd_threshold_clamp_roundtrip wn_accepting_set ⟨1, fun _ => 1/2⟩ (1/2) (3/10)
    (fun _ _ _ => rfl) (by norm_num)

/-- C5.  A frame whose RMS is below the noise gate passes through
unmodified: the output is the input list itself, the gain (and every other
field except the recorded input level and the frame counter) is
unchanged. -/
theorem agc_noise_gate_passthrough (agc : agc_instance) (audio : List Int)
    (hne : audio ≠ [])
    (hgate : calculate_rms audio < agc.config.noise_gate_threshold) :
    agc_process agc audio =
      some ({ agc with
        input_level := calculate_rms audio
        frames_processed := agc.frames_processed + 1 }, audio) := by
  simp [agc_process, hne, hgate]

/-- Witness for C5: a quiet frame under the default noise gate. -/
theorem agc_noise_gate_passthrough_witness :
    agc_process (agc_init id agc_get_default_config) [1, -1] =
      some ({ agc_init id agc_get_default_config with
        input_level := calculate_rms [1, -1]
        frames_processed :=
          (agc_init id agc_get_default_config).frames_processed + 1 },
        [1, -1]) :=
  agc_noise_gate_passthrough (agc_init id agc_get_default_config) [1, -1]
    (by decide) (by decide)

/-- The clamp in `calculate_coefficient`'s callers never fires for positive
time constants: the coefficient is exactly the spec's one-pole formula. -/
theorem calculate_coefficient_formula (expf : ℚ → ℚ) (time_ms : ℚ)
    (sr fs : Nat) (ht : 0 < time_ms)
    (hf : 0 < time_ms / 1000 * sr / fs) :
    calculate_coefficient expf time_ms sr fs =
      1 - expf (-1 / (time_ms / 1000 * sr / fs)) := by
  simp only [calculate_coefficient]
  rw [if_neg (not_le.mpr ht), if_neg (not_le.mpr hf)]

/-- The sequential clamp of the desired gain equals the mathematical clamp
into `[min_gain, max_gain]` whenever the RMS is positive. -/
theorem agc_desired_gain_eq (agc : agc_instance) (rms : Nat) (hpos : 0 < rms)
    (hmm : agc.config.min_gain ≤ agc.config.max_gain) :
    agc_desired_gain agc rms =
      min agc.config.max_gain (max agc.config.min_gain
        ((agc.config.target_level : ℚ) / (rms : ℚ))) := by
  simp only [agc_desired_gain, hpos, if_true]
  by_cases h1 : (agc.config.target_level : ℚ) / (rms : ℚ) < agc.config.min_gain
  · rw [if_pos h1, if_neg (not_lt.mpr hmm), max_eq_left (le_of_lt h1),
      min_eq_right hmm]
  · rw [if_neg h1]
    by_cases h2 : (agc.config.target_level : ℚ) / (rms : ℚ) > agc.config.max_gain
    · rw [if_pos h2, max_eq_right (not_lt.mp h1), min_eq_left (le_of_lt h2)]
    · rw [if_neg h2, max_eq_right (not_lt.mp h1), min_eq_right (not_lt.mp h2)]

/-- The clamped desired gain always lies inside `[min_gain, max_gain]`. -/
theorem agc_desired_gain_mem (agc : agc_instance) (rms : Nat)
    (hmm : agc.config.min_gain ≤ agc.config.max_gain) :
    agc.config.min_gain ≤ agc_desired_gain agc rms ∧
      agc_desired_gain agc rms ≤ agc.config.max_gain := by
  simp only [agc_desired_gain]
  split_ifs <;> constructor <;> linarith

/-- One step of the one-pole filter with coefficient in `(0, 1]` lands
between the previous value and the target. -/
theorem one_pole_between (g d c : ℚ) (hc0 : 0 < c) (hc1 : c ≤ 1) :
    min g d ≤ g + c * (d - g) ∧ g + c * (d - g) ≤ max g d := by
  rcases le_total g d with h | h
  · rw [min_eq_left h, max_eq_right h]
    constructor <;> nlinarith
  · rw [min_eq_right h, max_eq_left h]
    constructor <;> nlinarith

/-- C6.  For a frame at or above the noise gate, `agc_process` performs
exactly one step of the one-pole filter toward
`desired_gain = clamp(target_level / RMS, min_gain, max_gain)`, choosing
the attack coefficient when the desired gain exceeds the current gain and
the release coefficient otherwise; and the stored coefficients are derived
from their millisecond time constants by
`coeff = 1 − exp(−1 / (time_ms/1000 × sample_rate / frame_size))` with the
typical frame size 512 used at `agc_init`. -/
theorem agc_gain_smoothing (agc : agc_instance) (audio : List Int)
    (expf : ℚ → ℚ) (cfg : agc_config_t)
    (hne : audio ≠ [])
    (hgate : ¬ calculate_rms audio < agc.config.noise_gate_threshold)
    (hpos : 0 < calculate_rms audio)
    (hmm : agc.config.min_gain ≤ agc.config.max_gain)
    (hta : 0 < cfg.attack_time_ms)
    (hfa : 0 < cfg.attack_time_ms / 1000 * cfg.sample_rate / 512)
    (htr : 0 < cfg.release_time_ms)
    (hfr : 0 < cfg.release_time_ms / 1000 * cfg.sample_rate / 512) :
    (∀ s' out, agc_process agc audio = some (s', out) →
      s'.current_gain = agc.current_gain +
        (if agc_desired_gain agc (calculate_rms audio) > agc.current_gain
          then agc.attack_coeff else agc.release_coeff) *
        (agc_desired_gain agc (calculate_rms audio) - agc.current_gain)) ∧
    agc_desired_gain agc (calculate_rms audio) =
      min agc.config.max_gain (max agc.config.min_gain
        ((agc.config.target_level : ℚ) / (calculate_rms audio : ℚ))) ∧
    (agc_init expf cfg).attack_coeff =
      calculate_coefficient expf cfg.attack_time_ms cfg.sample_rate 512 ∧
    (agc_init expf cfg).release_coeff =
      calculate_coefficient expf cfg.release_time_ms cfg.sample_rate 512 ∧
    calculate_coefficient expf cfg.attack_time_ms cfg.sample_rate 512 =
      1 - expf (-1 / (cfg.attack_time_ms / 1000 * cfg.sample_rate / 512)) ∧
    calculate_coefficient expf cfg.release_time_ms cfg.sample_rate 512 =
      1 - expf (-1 / (cfg.release_time_ms / 1000 * cfg.sample_rate / 512)) := by
  refine ⟨?_, agc_desired_gain_eq agc (calculate_rms audio) hpos hmm,
    rfl, rfl,
    calculate_coefficient_formula expf cfg.attack_time_ms cfg.sample_rate 512 hta hfa,
    calculate_coefficient_formula expf cfg.release_time_ms cfg.sample_rate 512 htr hfr⟩
  intro s' out h
  simp only [agc_process, hne, hgate, if_false, Option.some.injEq,
    Prod.mk.injEq] at h
  obtain ⟨h1, _⟩ := h
  rw [← h1]

/-- C10.  `current_gain` is kept inside
`[min(min_gain, 1), max(max_gain, 1)]` of the instance's configuration:
`agc_init`/`agc_reset` set it to exactly 1, `agc_process` (for in-(0,1]
coefficients) moves it only between its previous value and the clamped
desired gain, `agc_set_gain_limits` clamps it into the new valid range,
and `agc_set_target_level` leaves it unchanged. -/
theorem agc_gain_invariant (expf : ℚ → ℚ) (cfg : agc_config_t)
    (s : agc_instance) (audio : List Int) (lvl : Nat) (mn mx : ℚ)
    (hatt0 : 0 < s.attack_coeff) (hatt1 : s.attack_coeff ≤ 1)
    (hrel0 : 0 < s.release_coeff) (hrel1 : s.release_coeff ≤ 1)
    (hmm : s.config.min_gain ≤ s.config.max_gain)
    (hlo : min s.config.min_gain 1 ≤ s.current_gain)
    (hhi : s.current_gain ≤ max s.config.max_gain 1) :
    (agc_init expf cfg).current_gain = 1 ∧
    (agc_reset s).current_gain = 1 ∧
    (agc_set_target_level s lvl).current_gain = s.current_gain ∧
    (agc_set_target_level s lvl).config.min_gain = s.config.min_gain ∧
    (agc_set_target_level s lvl).config.max_gain = s.config.max_gain ∧
    (∀ s2, agc_set_gain_limits s mn mx = some s2 →
      s2.config.min_gain = mn ∧ s2.config.max_gain = mx ∧
      mn ≤ s2.current_gain ∧ s2.current_gain ≤ mx) ∧
    (∀ s' out, agc_process s audio = some (s', out) →
      s'.config = s.config ∧
      min s.config.min_gain 1 ≤ s'.current_gain ∧
      s'.current_gain ≤ max s.config.max_gain 1 ∧
      (¬ calculate_rms audio < s.config.noise_gate_threshold →
        min s.current_gain (agc_desired_gain s (calculate_rms audio)) ≤
            s'.current_gain ∧
          s'.current_gain ≤
            max s.current_gain (agc_desired_gain s (calculate_rms audio)))) := by
  refine ⟨rfl, rfl, rfl, rfl, rfl, ?_, ?_⟩
  · intro s2 h
    by_cases hvalid : mn ≤ 0 ∨ mx < mn
    · simp [agc_set_gain_limits, hvalid] at h
    · simp only [agc_set_gain_limits, hvalid, if_false, Option.some.injEq] at h
      push_neg at hvalid
      subst h
      refine ⟨rfl, rfl, ?_, ?_⟩
      · show mn ≤ (if (if s.current_gain < mn then mn
            else s.current_gain) > mx then mx
          else (if s.current_gain < mn then mn else s.current_gain))
        split_ifs <;> linarith [hvalid.2]
      · show (if (if s.current_gain < mn then mn
            else s.current_gain) > mx then mx
          else (if s.current_gain < mn then mn else s.current_gain)) ≤ mx
        split_ifs <;> linarith [hvalid.2]
  · intro s' out h
    by_cases hne : audio = []
    · rw [hne] at h
      simp [agc_process] at h
    by_cases hgate : calculate_rms audio < s.config.noise_gate_threshold
    · rw [agc_noise_gate_passthrough s audio hne hgate] at h
      simp only [Option.some.injEq, Prod.mk.injEq] at h
      obtain ⟨h1, _⟩ := h
      rw [← h1]
      exact ⟨rfl, hlo, hhi, fun hg => absurd hgate hg⟩
    · simp only [agc_process, hne, hgate, if_false, Option.some.injEq,
        Prod.mk.injEq] at h
      obtain ⟨h1, _⟩ := h
      rw [← h1]
      have hc0 : 0 < (if agc_desired_gain s (calculate_rms audio) >
            s.current_gain then s.attack_coeff else s.release_coeff) ∧
          (if agc_desired_gain s (calculate_rms audio) > s.current_gain
            then s.attack_coeff else s.release_coeff) ≤ 1 := by
        split_ifs
        exacts [⟨hatt0, hatt1⟩, ⟨hrel0, hrel1⟩]
      have hmem := agc_desired_gain_mem s (calculate_rms audio) hmm
      have hbet := one_pole_between s.current_gain
        (agc_desired_gain s (calculate_rms audio))
        (if agc_desired_gain s (calculate_rms audio) > s.current_gain
          then s.attack_coeff else s.release_coeff) hc0.1 hc0.2
      refine ⟨rfl, ?_, ?_, fun _ => ⟨hbet.1, hbet.2⟩⟩
      · exact le_trans
          (le_min hlo (le_trans (min_le_left _ _) hmem.1)) hbet.1
      · exact le_trans hbet.2
          (max_le hhi (le_trans hmem.2 (le_max_left _ _)))

/-- RMS of the constant frame `[100, 100]`. -/
theorem calculate_rms_pair_100 : calculate_rms [100, 100] = 100 := by
  have h0 : ([100, 100] : List Int) ≠ [] := by simp
  unfold calculate_rms
  rw [if_neg h0]
  have hsum : (([100, 100] : List Int).foldl
      (fun acc s => acc + (s * s).toNat) 0) = 20000 := by
    decide
  have hlen : ([100, 100] : List Int).length = 2 := by simp
  rw [hsum, hlen, show (20000 : ℕ) / 2 = 100 * 100 from by norm_num,
    Nat.sqrt_eq]

/-- Witness for C6 on a loud constant frame. -/
theorem agc_gain_smoothing_witness :
    (∀ s' out, agc_process agc_default_half [100, 100] = some (s', out) →
      s'.current_gain = agc_default_half.current_gain +
        (if agc_desired_gain agc_default_half (calculate_rms [100, 100]) >
            agc_default_half.current_gain
          then agc_default_half.attack_coeff
          else agc_default_half.release_coeff) *
        (agc_desired_gain agc_default_half (calculate_rms [100, 100]) -
          agc_default_half.current_gain)) ∧
    agc_desired_gain agc_default_half (calculate_rms [100, 100]) =
      min agc_default_half.config.max_gain
        (max agc_default_half.config.min_gain
          ((agc_default_half.config.target_level : ℚ) /
            (calculate_rms [100, 100] : ℚ))) ∧
    (agc_init (fun _ => 1/2) agc_get_default_config).attack_coeff =
      calculate_coefficient (fun _ => 1/2)
        agc_get_default_config.attack_time_ms
        agc_get_default_config.sample_rate 512 ∧
    (agc_init (fun _ => 1/2) agc_get_default_config).release_coeff =
      calculate_coefficient (fun _ => 1/2)
        agc_get_default_config.release_time_ms
        agc_get_default_config.sample_rate 512 ∧
    calculate_coefficient (fun _ => 1/2)
        agc_get_default_config.attack_time_ms
        agc_get_default_config.sample_rate 512 =
      1 - (fun _ : ℚ => (1/2 : ℚ))
        (-1 / (agc_get_default_config.attack_time_ms / 1000 *
          agc_get_default_config.sample_rate / 512)) ∧
    calculate_coefficient (fun _ => 1/2)
        agc_get_default_config.release_time_ms
        agc_get_default_config.sample_rate 512 =
      1 - (fun _ : ℚ => (1/2 : ℚ))
        (-1 / (agc_get_default_config.release_time_ms / 1000 *
          agc_get_default_config.sample_rate / 512)) :=
  agc_gain_smoothing agc_default_half [100, 100] (fun _ => 1/2)
    agc_get_default_config (by decide)
    (by norm_num [calculate_rms_pair_100, agc_default_half, agc_init,
      agc_get_default_config])
    (by norm_num [calculate_rms_pair_100])
    (by norm_num [agc_default_half, agc_init, agc_get_default_config])
    (by norm_num [agc_get_default_config])
    (by norm_num [agc_get_default_config])
    (by norm_num [agc_get_default_config])
    (by norm_num [agc_get_default_config])

/-- Witness for C10 on the same concrete instance. -/
theorem agc_gain_invariant_witness :
    (agc_init (fun _ => 1/2) agc_get_default_config).current_gain = 1 ∧
    (agc_reset agc_default_half).current_gain = 1 ∧
    (agc_set_target_level agc_default_half 3000).current_gain =
      agc_default_half.current_gain ∧
    (agc_set_target_level agc_default_half 3000).config.min_gain =
      agc_default_half.config.min_gain ∧
    (agc_set_target_level agc_default_half 3000).config.max_gain =
      agc_default_half.config.max_gain ∧
    (∀ s2, agc_set_gain_limits agc_default_half 1 2 = some s2 →
      s2.config.min_gain = 1 ∧ s2.config.max_gain = 2 ∧
      1 ≤ s2.current_gain ∧ s2.current_gain ≤ 2) ∧
    (∀ s' out, agc_process agc_default_half [100, 100] = some (s', out) →
      s'.config = agc_default_half.config ∧
      min agc_default_half.config.min_gain 1 ≤ s'.current_gain ∧
      s'.current_gain ≤ max agc_default_half.config.max_gain 1 ∧
      (¬ calculate_rms [100, 100] <
          agc_default_half.config.noise_gate_threshold →
        min agc_default_half.current_gain
            (agc_desired_gain agc_default_half (calculate_rms [100, 100])) ≤
            s'.current_gain ∧
          s'.current_gain ≤
            max agc_default_half.current_gain
              (agc_desired_gain agc_default_half
                (calculate_rms [100, 100])))) :=
  agc_gain_invariant (fun _ => 1/2) agc_get_default_config agc_default_half
    [100, 100] 3000 1 2
    (by norm_num [agc_default_half, agc_init, agc_get_default_config,
      calculate_coefficient])
    (by norm_num [agc_default_half, agc_init, agc_get_default_config,
      calculate_coefficient])
    (by norm_num [agc_default_half, agc_init, agc_get_default_config,
      calculate_coefficient])
    (by norm_num [agc_default_half, agc_init, agc_get_default_config,
      calculate_coefficient])
    (by norm_num [agc_default_half, agc_init, agc_get_default_config])
    (by norm_num [agc_default_half, agc_init, agc_get_default_config])
    (by norm_num [agc_default_half, agc_init, agc_get_default_config])

/-- C7.  On a pipeline error the session state is cleared — pipeline
inactive, handle freed/nulled, chunks-sent zeroed — and a
`PIPELINE_ERROR_RESUME` is queued whose processing waits a fixed
2000 ms delay (the same constant on every invocation, not an exponential
backoff) and then enqueues the resume-listen command. -/
theorem pipeline_error_recovery (s : SessionState)
    (hq : s.queue.length < 8) :
    (pipeline_error_handler s).pipeline_active = false ∧
    (pipeline_error_handler s).pipeline_handler = false ∧
    (pipeline_error_handler s).audio_chunks_sent = 0 ∧
    (pipeline_error_handler s).queue =
      s.queue ++ [AudioCmd.pipelineErrorResume] ∧
    (∀ s2 : SessionState,
      (process_pipeline_error_resume s2).1 = pipeline_error_resume_delay_ms) ∧
    pipeline_error_resume_delay_ms = 2000 ∧
    (∀ s2 : SessionState, s2.queue.length < 8 →
      (process_pipeline_error_resume s2).2.queue =
        s2.queue ++ [AudioCmd.resumeWwd]) := by
  refine ⟨rfl, rfl, rfl, ?_, fun s2 => rfl, rfl, ?_⟩
  · show audio_post_cmd s.queue AudioCmd.pipelineErrorResume = _
    simp [audio_post_cmd, hq]
  · intro s2 hq2
    show audio_post_cmd s2.queue AudioCmd.resumeWwd = _
    simp [audio_post_cmd, hq2]

/-- Witness for C7 from an active session with an empty queue. -/
theorem pipeline_error_recovery_witness :
    (pipeline_error_handler ⟨true, true, 5, 0, []⟩).pipeline_active = false ∧
    (pipeline_error_handler ⟨true, true, 5, 0, []⟩).pipeline_handler = false ∧
    (pipeline_error_handler ⟨true, true, 5, 0, []⟩).audio_chunks_sent = 0 ∧
    (pipeline_error_handler ⟨true, true, 5, 0, []⟩).queue =
      ([] : List AudioCmd) ++ [AudioCmd.pipelineErrorResume] ∧
    (∀ s2 : SessionState,
      (process_pipeline_error_resume s2).1 = pipeline_error_resume_delay_ms) ∧
    pipeline_error_resume_delay_ms = 2000 ∧
    (∀ s2 : SessionState, s2.queue.length < 8 →
      (process_pipeline_error_resume s2).2.queue =
        s2.queue ++ [AudioCmd.resumeWwd]) :=
  pipeline_error_recovery ⟨true, true, 5, 0, []⟩ (by decide)

/-- Warm-up consumption through a run of ready frames: the forwarded
frames are exactly the input with the first `warmup_chunks_skip`
dropped. -/
theorem capture_run_drop (frames : List (List Int)) :
    ∀ s : SessionState, s.pipeline_active = true → s.pipeline_handler = true →
      (∀ f ∈ frames, f ≠ []) →
      (capture_run true StreamRes.ok s frames).2 =
        frames.drop s.warmup_chunks_skip := by
  induction frames with
  | nil => intro s _ _ _; simp [capture_run]
  | cons f rest ih =>
    intro s ha hh hf
    have hfne : f ≠ [] := hf f (List.mem_cons_self f rest)
    cases hw : s.warmup_chunks_skip with
    | zero =>
      have hstep : audio_capture_handler true StreamRes.ok s f =
          ({ s with audio_chunks_sent := s.audio_chunks_sent + 1 }, true) := by
        simp [audio_capture_handler, ha, hh, hfne, hw]
      simp only [capture_run, hstep]
      rw [ih _ (by simpa using ha) (by simpa using hh)
        (fun g hg => hf g (List.mem_cons_of_mem f hg))]
      simp [hw]
    | succ k =>
      have hstep : audio_capture_handler true StreamRes.ok s f =
          ({ s with warmup_chunks_skip := s.warmup_chunks_skip - 1 }, false) := by
        simp [audio_capture_handler, ha, hh, hfne, hw]
      simp only [capture_run, hstep]
      rw [ih _ (by simpa using ha) (by simpa using hh)
        (fun g hg => hf g (List.mem_cons_of_mem f hg))]
      simp [hw]

/-- C9.  A session started by `test_audio_streaming` begins with a warm-up
budget of exactly 10 frames; each ready captured frame arriving while the
budget is positive is consumed — counter decremented, frame not forwarded
— and the frames forwarded to the streaming collaborator are exactly the
input frames with the first 10 discarded. -/
theorem vad_warmup_discipline (s0 : SessionState) (frames : List (List Int))
    (hfr : ∀ f ∈ frames, f ≠ []) :
    (test_audio_streaming s0).warmup_chunks_skip = 10 ∧
    (∀ (s : SessionState) (f : List Int), s.pipeline_active = true →
      s.pipeline_handler = true → f ≠ [] → 0 < s.warmup_chunks_skip →
      audio_capture_handler true StreamRes.ok s f =
        ({ s with warmup_chunks_skip := s.warmup_chunks_skip - 1 }, false)) ∧
    (capture_run true StreamRes.ok (test_audio_streaming s0) frames).2 =
      frames.drop 10 := by
  refine ⟨rfl, ?_, ?_⟩
  · intro s f ha hh hfne hw
    simp [audio_capture_handler, ha, hh, hfne, hw]
  · exact capture_run_drop frames (test_audio_streaming s0) rfl rfl hfr

/-- Witness for C9: 12 one-sample frames; the last two are forwarded. -/
theorem vad_warmup_discipline_witness :
    (test_audio_streaming ⟨false, false, 0, 0, []⟩).warmup_chunks_skip = 10 ∧
    (∀ (s : SessionState) (f : List Int), s.pipeline_active = true →
      s.pipeline_handler = true → f ≠ [] → 0 < s.warmup_chunks_skip →
      audio_capture_handler true StreamRes.ok s f =
        ({ s with warmup_chunks_skip := s.warmup_chunks_skip - 1 }, false)) ∧
    (capture_run true StreamRes.ok
        (test_audio_streaming ⟨false, false, 0, 0, []⟩)
        (List.replicate 12 [7])).2 =
      (List.replicate 12 [7]).drop 10 :=
  vad_warmup_discipline ⟨false, false, 0, 0, []⟩ (List.replicate 12 [7])
    (by decide)

/-- The phase invariant is preserved by every autonomous step. -/
theorem sys_inv_step (ss s' : SysState) (h : SysStep false ss s')
    (hinv : SysInv ss) : SysInv s' := by
  cases h with
  | detect ext s hr =>
    rcases hinv with ⟨b, rfl⟩ | ⟨b, rfl⟩ | ⟨b, rfl⟩ | ⟨b, rfl⟩ | ⟨b, rfl⟩ |
      ⟨b, rfl⟩ | ⟨b, rfl⟩
    · simp at hr
    · simp at hr
    · exact Or.inr (Or.inr (Or.inr (Or.inl ⟨b,
        by simp [wwd_detect_event, on_wake_word_detected, audio_post_cmd]⟩)))
    · simp at hr
    · simp at hr
    · simp at hr
    · simp at hr
  | process ext s c rest hq =>
    rcases hinv with ⟨b, rfl⟩ | ⟨b, rfl⟩ | ⟨b, rfl⟩ | ⟨b, rfl⟩ | ⟨b, rfl⟩ |
      ⟨b, rfl⟩ | ⟨b, rfl⟩
    · simp at hq
    · simp only [SysState.mk.injEq] at hq
      obtain ⟨hc, hrest⟩ := List.cons.injEq .. |>.mp hq
      subst hc
      subst hrest
      cases b with
      | false => exact Or.inl ⟨false, by simp [process_cmd]⟩
      | true => exact Or.inr (Or.inr (Or.inl ⟨true, by simp [process_cmd]⟩))
    · simp at hq
    · obtain ⟨hc, hrest⟩ := List.cons.injEq .. |>.mp hq
      subst hc
      subst hrest
      exact Or.inr (Or.inr (Or.inr (Or.inr (Or.inl ⟨b,
        by simp [process_cmd]⟩))))
    · simp at hq
    · simp at hq
    · obtain ⟨hc, hrest⟩ := List.cons.injEq .. |>.mp hq
      subst hc
      subst hrest
      exact Or.inr (Or.inl ⟨b, by simp [process_cmd, audio_post_cmd]⟩)
  | speechEnd ext s hact =>
    rcases hinv with ⟨b, rfl⟩ | ⟨b, rfl⟩ | ⟨b, rfl⟩ | ⟨b, rfl⟩ | ⟨b, rfl⟩ |
      ⟨b, rfl⟩ | ⟨b, rfl⟩
    · simp at hact
    · simp at hact
    · simp at hact
    · simp at hact
    · exact Or.inr (Or.inr (Or.inr (Or.inr (Or.inr (Or.inl ⟨b, by simp⟩)))))
    · simp at hact
    · simp at hact
  | pipelineError ext s hact =>
    rcases hinv with ⟨b, rfl⟩ | ⟨b, rfl⟩ | ⟨b, rfl⟩ | ⟨b, rfl⟩ | ⟨b, rfl⟩ |
      ⟨b, rfl⟩ | ⟨b, rfl⟩
    · simp at hact
    · simp at hact
    · simp at hact
    · simp at hact
    · exact Or.inr (Or.inr (Or.inr (Or.inr (Or.inr (Or.inr ⟨b,
        by simp [audio_post_cmd]⟩)))))
    · simp at hact
    · simp at hact
  | ttsComplete ext s htts =>
    rcases hinv with ⟨b, rfl⟩ | ⟨b, rfl⟩ | ⟨b, rfl⟩ | ⟨b, rfl⟩ | ⟨b, rfl⟩ |
      ⟨b, rfl⟩ | ⟨b, rfl⟩
    · simp at htts
    · simp at htts
    · simp at htts
    · simp at htts
    · simp at htts
    · exact Or.inr (Or.inl ⟨b, by simp [audio_post_cmd]⟩)
    · simp at htts

/-- C4 (amended).  In the autonomous wake-session cycle (no external
control-surface resume), the pending-wake flag makes
`on_wake_word_detected` drop any further detection event outright, and
whenever a wake is in flight or a session is active the detector is
disarmed, so no second `AUDIO_CMD_WAKE_DETECTED` can be enqueued before
the session completes or errors: the queue never holds more than one wake
command, and none at all while the pipeline is active. -/
theorem wake_reentrancy_guard (s : SysState)
    (hreach : Relation.ReflTransGen (SysStep false) sysInit s) :
    (s.wake_detect_pending = true → on_wake_word_detected s = s) ∧
    (s.wake_detect_pending = true ∨ s.pipeline_active = true →
      s.wwd_running = false) ∧
    (s.pipeline_active = true → s.queue.count AudioCmd.wakeDetected = 0) ∧
    s.queue.count AudioCmd.wakeDetected ≤ 1 := by
  have hinv : SysInv s := by
    induction hreach with
    | refl => exact Or.inr (Or.inl ⟨true, rfl⟩)
    | tail hab hbc ih => exact sys_inv_step _ _ hbc ih
  refine ⟨fun hp => by simp [on_wake_word_detected, hp], ?_⟩
  rcases hinv with ⟨b, rfl⟩ | ⟨b, rfl⟩ | ⟨b, rfl⟩ | ⟨b, rfl⟩ | ⟨b, rfl⟩ |
    ⟨b, rfl⟩ | ⟨b, rfl⟩ <;> refine ⟨?_, ?_, ?_⟩ <;>
    simp [List.count_cons, List.count_nil]

/-- Witness for C4 (amended) at the boot state. -/
theorem wake_reentrancy_guard_witness :
    (sysInit.wake_detect_pending = true →
      on_wake_word_detected sysInit = sysInit) ∧
    (sysInit.wake_detect_pending = true ∨ sysInit.pipeline_active = true →
      sysInit.wwd_running = false) ∧
    (sysInit.pipeline_active = true →
      sysInit.queue.count AudioCmd.wakeDetected = 0) ∧
    sysInit.queue.count AudioCmd.wakeDetected ≤ 1 :=
  wake_reentrancy_guard sysInit Relation.ReflTransGen.refl

/-- C4 counterexample.  With the external MQTT `wwd_enabled = ON` command
admitted (it posts `AUDIO_CMD_RESUME_WWD` unconditionally, and the
`RESUME_WWD` handler re-arms the detector without checking
`pipeline_active`), the system reaches a state that is still recording the
first wake's session — the session has neither completed nor errored —
with the detector re-armed; a detection there is NOT ignored: a second
`AUDIO_CMD_WAKE_DETECTED` is enqueued while the session is in flight. -/
theorem wake_reentrancy_counterexample :
    Relation.ReflTransGen (SysStep true) sysInit
      ⟨true, true, false, true, false, []⟩ ∧
    (⟨true, true, false, true, false, []⟩ : SysState).pipeline_active
      = true ∧
    SysStep true ⟨true, true, false, true, false, []⟩
      ⟨false, true, true, true, false, [AudioCmd.wakeDetected]⟩ ∧
    (⟨false, true, true, true, false,
      [AudioCmd.wakeDetected]⟩ : SysState).pipeline_active = true ∧
    (⟨false, true, true, true, false,
      [AudioCmd.wakeDetected]⟩ : SysState).queue.count
        AudioCmd.wakeDetected = 1 := by
  have t1 : SysStep true sysInit ⟨true, true, false, false, false, []⟩ :=
    SysStep.process true sysInit AudioCmd.resumeWwd [] rfl
  have t2 : SysStep true ⟨true, true, false, false, false, []⟩
      ⟨false, true, true, false, false, [AudioCmd.wakeDetected]⟩ :=
    SysStep.detect true ⟨true, true, false, false, false, []⟩ rfl
  have t3 : SysStep true
      ⟨false, true, true, false, false, [AudioCmd.wakeDetected]⟩
      ⟨false, true, false, true, false, []⟩ :=
    SysStep.process true
      ⟨false, true, true, false, false, [AudioCmd.wakeDetected]⟩
      AudioCmd.wakeDetected [] rfl
  have t4 : SysStep true ⟨false, true, false, true, false, []⟩
      ⟨false, true, false, true, false, [AudioCmd.resumeWwd]⟩ :=
    SysStep.mqttWwdOn ⟨false, true, false, true, false, []⟩
  have t5 : SysStep true
      ⟨false, true, false, true, false, [AudioCmd.resumeWwd]⟩
      ⟨true, true, false, true, false, []⟩ :=
    SysStep.process true
      ⟨false, true, false, true, false, [AudioCmd.resumeWwd]⟩
      AudioCmd.resumeWwd [] rfl
  have t6 : SysStep true ⟨true, true, false, true, false, []⟩
      ⟨false, true, true, true, false, [AudioCmd.wakeDetected]⟩ :=
    SysStep.detect true ⟨true, true, false, true, false, []⟩ rfl
  exact ⟨Relation.ReflTransGen.head t1 (Relation.ReflTransGen.head t2
    (Relation.ReflTransGen.head t3 (Relation.ReflTransGen.head t4
      (Relation.ReflTransGen.single t5)))), rfl, t6, rfl, by decide⟩

/-- C8 counterexample.  After a failed detector init
(`wwd_init_result = ESP_FAIL`), a later `AUDIO_CMD_RESTART_WWD` (posted by
a threshold change) re-runs `wwd_init`, and the SD-mount retry path calls
`init_wake_word_detection_if_needed` again; if that attempt succeeds the
detector IS re-initialized — it does not stay uninitialized for the rest
of the boot. -/
theorem wwd_model_error_retry_counterexample :
    init_wake_word_detection_if_needed true false = true ∧
    process_restart_wwd true false = true ∧
    ¬ (init_wake_word_detection_if_needed true false = false ∧
      process_restart_wwd true false = false) := by
  decide

/-- C8 (amended).  A detector init failure degrades the system to
VAD-only activation — `app_main` starts the pipeline directly and every
`AUDIO_CMD_RESUME_WWD` is skipped (pending flag cleared, detector left
disarmed) while `wwd_init_result ≠ ESP_OK` — but the failure is not
permanent: the SD-mount retry and the threshold-change restart command
both re-run `wwd_init` and store its fresh outcome. -/
theorem wwd_model_error_degraded_mode (s : SysState) (outcome r : Bool)
    (hs : s.wwd_init_ok = false) :
    app_main_activation false r = BootActivation.startVadPipeline ∧
    process_cmd AudioCmd.resumeWwd s =
      { s with wake_detect_pending := false } ∧
    (process_cmd AudioCmd.resumeWwd s).wwd_running = s.wwd_running ∧
    init_wake_word_detection_if_needed outcome false = outcome ∧
    process_restart_wwd outcome r = outcome := by
  refine ⟨by cases r <;> rfl, ?_, ?_, by cases outcome <;> rfl, rfl⟩
  · simp [process_cmd, hs]
  · simp [process_cmd, hs]

/-- Witness for C8 (amended) at a concrete degraded state. -/
theorem wwd_model_error_degraded_mode_witness :
    app_main_activation false false = BootActivation.startVadPipeline ∧
    process_cmd AudioCmd.resumeWwd ⟨false, false, true, false, false, []⟩ =
      { (⟨false, false, true, false, false, []⟩ : SysState) with
        wake_detect_pending := false } ∧
    (process_cmd AudioCmd.resumeWwd
      ⟨false, false, true, false, false, []⟩).wwd_running =
      (⟨false, false, true, false, false, []⟩ : SysState).wwd_running ∧
    init_wake_word_detection_if_needed true false = true ∧
    process_restart_wwd true false = true :=
  wwd_model_error_degraded_mode ⟨false, false, true, false, false, []⟩
    true false rfl

end VA
